import Mathlib

/-!
Shallow embedding of `src/index.js`: a Discord bot that keeps per-user
message statistics (messages, images, gifs, videos, links) in a JSON-backed
object `stats`, accumulates them from live and historical messages, and
renders a top-ten leaderboard per category.

The JS object `stats` is modelled as an association list from user id to
record, in property-insertion order (Discord snowflake ids are not JS array
indices, so `Object.entries` iterates them in insertion order).  Reading,
writing and in-place update of `stats[userId]` act on the first occurrence
of the key, matching JS object semantics (an object never holds a duplicate
key; updates keep the key position, fresh keys are appended).
-/

/-- The author of a message (`message.author`): id, username, `bot` flag. -/
structure Author where
  id : String
  username : String
  bot : Bool
  deriving DecidableEq

/-- A message attachment; `name` is `none` when `attachment.name` is
`null`/`undefined`. -/
structure Attachment where
  name : Option String
  deriving DecidableEq

/-- The parts of a Discord message the stats pipeline looks at. -/
structure Message where
  author : Author
  content : String
  attachments : List Attachment
  deriving DecidableEq

/-- One user's record in `stats`.  Counter fields are `Option Nat`: `none`
models a key that is `undefined` (schema drift in an old `stats.json`
snapshot); every record the program itself writes has all five keys. -/
structure UserStats where
  username : String
  messages : Option Nat
  images : Option Nat
  gifs : Option Nat
  videos : Option Nat
  links : Option Nat
  deriving DecidableEq

/-- The in-memory `stats` object, in property-insertion order. -/
abbrev Store := List (String × UserStats)

/-- Reading `stats[userId]`: `none` models `undefined`. -/
def getUser : Store → String → Option UserStats
  | [], _ => none
  | (k, v) :: rest, uid => if k = uid then some v else getUser rest uid

/-- Writing `stats[userId] = r`: an existing key keeps its position, a fresh
key is appended at the end (JS object property order). -/
def setUser : Store → String → UserStats → Store
  | [], uid, r => [(uid, r)]
  | (k, v) :: rest, uid, r =>
    if k = uid then (uid, r) :: rest else (k, v) :: setUser rest uid r

/-- In-place mutation of the record at `stats[userId]` (e.g.
`stats[userId].messages++`); a missing key leaves the store unchanged. -/
def mapUser : Store → String → (UserStats → UserStats) → Store
  | [], _, _ => []
  | (k, v) :: rest, uid, f =>
    if k = uid then (k, f v) :: rest else (k, v) :: mapUser rest uid f

/-- `initUserStats` (src/index.js:32-55): create a fresh all-zero record for
an unseen author, otherwise refresh the username and repair any counter key
that is `undefined` to `0`. -/
def initUserStats (m : Message) (s : Store) : Store :=
  let userId := m.author.id
  let username := m.author.username
  match getUser s userId with
  | none =>
    setUser s userId
      { username := username, messages := some 0, images := some 0,
        gifs := some 0, videos := some 0, links := some 0 }
  | some r =>
    setUser s userId
      { username := username,
        messages := if r.messages = none then some 0 else r.messages,
        images := if r.images = none then some 0 else r.images,
        gifs := if r.gifs = none then some 0 else r.gifs,
        videos := if r.videos = none then some 0 else r.videos,
        links := if r.links = none then some 0 else r.links }

/-- Does `pat` occur at the start of the text?  (character-by-character). -/
def startsL : List Char → List Char → Bool
  | [], _ => true
  | _ :: _, [] => false
  | p :: ps, c :: cs => p == c && startsL ps cs

/-- Is the first character present and not whitespace?  This is one step of
the regex `[^\s]+`, whose presence needs at least one such character. -/
def nonspaceAt : List Char → Bool
  | [] => false
  | c :: _ => !c.isWhitespace

/-- Does the regex `https?:\/\/[^\s]+` match at this position? -/
def isLinkAt (l : List Char) : Bool :=
  (startsL "https://".data l && nonspaceAt (l.drop 8)) ||
  (startsL "http://".data l && nonspaceAt (l.drop 7))

/-- Does the regex match anywhere in the text? -/
def containsLinkAux : List Char → Bool
  | [] => false
  | c :: cs => isLinkAt (c :: cs) || containsLinkAux cs

/-- `linkRegex.test(message.content)` with
`linkRegex = /(https?:\/\/[^\s]+)/g` (src/index.js:89-90): a pure presence
test (the regex object is created afresh on every call, so the `g` flag
carries no state across calls). -/
def containsLink (s : String) : Bool := containsLinkAux s.data

/-- JS `String.prototype.endsWith`, via the reversed character lists. -/
def endsWithS (s suffix : String) : Bool :=
  startsL suffix.data.reverse s.data.reverse

/-- JS `String.prototype.toLowerCase`, character by character. -/
def toLowerS (s : String) : String := ⟨s.data.map Char.toLower⟩

/-- `attachment.name?.toLowerCase() || ''` (src/index.js:72). -/
def lowerName (a : Attachment) : String :=
  match a.name with
  | some n => toLowerS n
  | none => ""

/-- `stats[userId].messages++` on an initialized record. -/
def bumpMessages (r : UserStats) : UserStats :=
  { r with messages := r.messages.map (· + 1) }

/-- `stats[userId].images++` on an initialized record. -/
def bumpImages (r : UserStats) : UserStats :=
  { r with images := r.images.map (· + 1) }

/-- `stats[userId].gifs++` on an initialized record. -/
def bumpGifs (r : UserStats) : UserStats :=
  { r with gifs := r.gifs.map (· + 1) }

/-- `stats[userId].videos++` on an initialized record. -/
def bumpVideos (r : UserStats) : UserStats :=
  { r with videos := r.videos.map (· + 1) }

/-- `stats[userId].links++` on an initialized record. -/
def bumpLinks (r : UserStats) : UserStats :=
  { r with links := r.links.map (· + 1) }

/-- The per-attachment branch of `processMessage` (src/index.js:71-85):
a case-insensitive extension test assigns the attachment to at most one of
images / gifs / videos. -/
def classifyAttachment (a : Attachment) (r : UserStats) : UserStats :=
  let fileName := lowerName a
  if endsWithS fileName ".png" || endsWithS fileName ".jpg" ||
      endsWithS fileName ".jpeg" then
    bumpImages r
  else if endsWithS fileName ".gif" then
    bumpGifs r
  else if endsWithS fileName ".mp4" || endsWithS fileName ".mov" ||
      endsWithS fileName ".avi" || endsWithS fileName ".wmv" then
    bumpVideos r
  else r

/-- `processMessage` (src/index.js:58-96).  The returned `Bool` records
whether `saveStats()` was reached (the store is persisted). -/
def processMessage (m : Message) (s : Store) : Store × Bool :=
  if m.author.bot then (s, false)
  else
    let userId := m.author.id
    let s1 := initUserStats m s
    let s2 := mapUser s1 userId bumpMessages
    let s3 := m.attachments.foldl
      (fun st a => mapUser st userId (classifyAttachment a)) s2
    let s4 := if containsLink m.content then mapUser s3 userId bumpLinks else s3
    (s4, true)

/-- The five counter categories of a record. -/
inductive Category
  | messages
  | images
  | gifs
  | videos
  | links
  deriving DecidableEq

/-- `userStats[category]`. -/
def readCat : Category → UserStats → Option Nat
  | .messages, r => r.messages
  | .images, r => r.images
  | .gifs, r => r.gifs
  | .videos, r => r.videos
  | .links, r => r.links

/-- The numeric value of a user's counter in a store, with an absent user or
an `undefined` key reading as 0.  This is the observation the claims speak
about. -/
def readCount (s : Store) (u : String) (c : Category) : Nat :=
  ((getUser s u).bind fun r => readCat c r).getD 0

/-- Sum of the `messages` counters over the whole store. -/
def totalMessages : Store → Nat
  | [] => 0
  | (_, r) :: rest => r.messages.getD 0 + totalMessages rest

/-- Outcome of one `channel.messages.fetch` call: a page of messages
(newest-first pagination) or a thrown transient error. -/
inductive FetchResult
  | ok (msgs : List Message)
  | err
  deriving DecidableEq

/-- How a channel's backfill loop ended: `Done` through one of the normal
`break`s (empty or short page), `Aborted` through the `catch` branch. -/
inductive LoopState
  | Done
  | Aborted
  deriving DecidableEq

/-- Instrumented result of one channel's `while (true)` fetch loop. -/
structure BackfillResult where
  store : Store
  fetchCalls : Nat
  fetchedCount : Nat
  sizes : List Nat
  processed : List Message
  state : LoopState
  deriving DecidableEq

/-- Fold `processMessage` over a page of messages (`fetchedMessages.forEach`). -/
def processList (msgs : List Message) (s : Store) : Store :=
  msgs.foldl (fun st m => (processMessage m st).1) s

/-- The per-channel `while (true)` loop of `fetchAllMessagesForGuild`
(src/index.js:113-133).  The argument lists the successive responses of
`channel.messages.fetch`; a channel's real pagination always eventually
yields a short, empty or failing page, so the loop stops before the list
runs out (the `[]` case is unreachable for such response lists). -/
def backfillChannel : List FetchResult → Store → BackfillResult
  | [], s => ⟨s, 0, 0, [], [], .Done⟩
  | .err :: _, s => ⟨s, 1, 0, [], [], .Aborted⟩
  | .ok msgs :: rest, s =>
    if msgs.length = 0 then ⟨s, 1, 0, [msgs.length], [], .Done⟩
    else
      let s1 := processList msgs s
      if msgs.length < 100 then
        ⟨s1, 1, msgs.length, [msgs.length], msgs, .Done⟩
      else
        let r := backfillChannel rest s1
        ⟨r.store, r.fetchCalls + 1, msgs.length + r.fetchedCount,
          msgs.length :: r.sizes, msgs ++ r.processed, r.state⟩

/-- A guild channel: its name, whether `channel.type === ChannelType.GuildText`,
and the successive responses its `messages.fetch` produces. -/
structure GChannel where
  name : String
  isText : Bool
  pages : List FetchResult
  deriving DecidableEq

/-- A guild: its channel cache, in iteration order. -/
structure Guild where
  channels : List GChannel
  deriving DecidableEq

/-- Store and processed-message instrumentation of a whole-guild backfill. -/
structure GuildBackfill where
  store : Store
  processed : List Message
  deriving DecidableEq

/-- `fetchAllMessagesForGuild` (src/index.js:99-140): run the backfill loop
over every text channel of the guild, in channel-cache order, threading the
stats store through. -/
def fetchAllMessagesForGuildR (g : Guild) (s : Store) : GuildBackfill :=
  g.channels.foldl
    (fun acc ch =>
      if ch.isText then
        let r := backfillChannel ch.pages acc.store
        ⟨r.store, acc.processed ++ r.processed⟩
      else acc)
    ⟨s, []⟩

/-- The store component of a whole-guild backfill. -/
def fetchAllMessagesForGuild (g : Guild) (s : Store) : Store :=
  (fetchAllMessagesForGuildR g s).store

/-- The sort key of the category leaderboards (src/index.js:184-188): the
comparator `(a, b) => b[1][cat] - a[1][cat]` orders entries by the numeric
counter value, descending. -/
def catKey (c : Category) (e : String × UserStats) : Nat :=
  (readCat c e.2).getD 0

/-- `[...entries].sort(comparator)` with the descending numeric comparator:
JS `Array.prototype.sort` is stable, so the result is the unique stable
descending order, here realised by Mathlib's stable insertion sort. -/
def jsSortBy (key : String × UserStats → Nat) (l : List (String × UserStats)) :
    List (String × UserStats) :=
  List.insertionSort (fun a b => key b ≤ key a) l

/-- Outcome of resolving a guild member for display (src/index.js:198-219):
found (with `displayName` and `user.username`), the unknown-member error
10007, or any other fetch error. -/
inductive MemberLookup
  | found (displayName username : String)
  | unknownMember
  | otherError

/-- The display-name resolution inside `getTopTenUsers`
(src/index.js:196-222): start from the stored username; a found member
contributes `member.displayName || member.user.username`; error 10007 gives
"Unknown User"; any other error keeps the stored username; an empty result
falls back to the user id. -/
def displayNameOf (resolve : String → MemberLookup) (uid : String)
    (r : UserStats) : String :=
  let d :=
    match resolve uid with
    | .found dn un => if dn = "" then un else dn
    | .unknownMember => "Unknown User"
    | .otherError => r.username
  if d = "" then uid else d

/-- JS `Array.prototype.indexOf` on an array of objects compares elements by
reference identity (`===`).  `refs` lists the identities of the array's
elements and `x` is the identity of the searched value. -/
def jsIndexOf (refs : List Nat) (x : Nat) : Int :=
  match refs.indexOf? x with
  | some i => (i : Int)
  | none => -1

/-- Template interpolation of `userStats[category]`: an `undefined` key
prints as "undefined". -/
def jsNumToString : Option Nat → String
  | some n => toString n
  | none => "undefined"

/-- `getTopTenUsers` (src/index.js:191-229).  Each line interpolates
`topTen.indexOf([userId, userStats]) + 1`: the searched value is a freshly
allocated two-element array, so its identity differs from the identity of
every element of `topTen`; positions `0 .. topTen.length - 1` serve as the
element identities and `topTen.length` as the fresh identity. -/
def getTopTenUsers (resolve : String → MemberLookup)
    (leaderboard : List (String × UserStats)) (category : Category) : String :=
  let topTen := leaderboard.take 10
  let text := String.join (topTen.map (fun e =>
    toString (jsIndexOf (List.range topTen.length) topTen.length + 1) ++
      ". **" ++ displayNameOf resolve e.1 e.2 ++ "** - `" ++
      jsNumToString (readCat category e.2) ++ "`\n"))
  if text = "" then "No data" else text

/-- The `statsMessage` assembled by the `!stats` branch (src/index.js:232-243). -/
def renderStats (resolve : String → MemberLookup) (s : Store) : String :=
  let entries := s
  let messagesText := getTopTenUsers resolve (jsSortBy (catKey .messages) entries) .messages
  let imagesText := getTopTenUsers resolve (jsSortBy (catKey .images) entries) .images
  let gifsText := getTopTenUsers resolve (jsSortBy (catKey .gifs) entries) .gifs
  let videosText := getTopTenUsers resolve (jsSortBy (catKey .videos) entries) .videos
  let linksText := getTopTenUsers resolve (jsSortBy (catKey .links) entries) .links
  "**Server Leaderboard (Top 10):**\n\n" ++
    "**Messages:**\n" ++ messagesText ++ "\n" ++
    "**Images:**\n" ++ imagesText ++ "\n" ++
    "**GIFs:**\n" ++ gifsText ++ "\n" ++
    "**Videos:**\n" ++ videosText ++ "\n" ++
    "**Links:**\n" ++ linksText ++ "\n"

/-- Result of one `messageCreate` event: the store afterwards, the messages
that were passed to `processMessage` (in order), and the text sent back to
the channel, when any. -/
structure HandlerResult where
  store : Store
  processed : List Message
  reply : Option String

/-- The `messageCreate` handler (src/index.js:148-247).  `g` is
`message.guild` (`none` in a DM); `resolve` stands for the member lookup the
renderer uses. -/
def handleMessage (resolve : String → MemberLookup) (g : Option Guild)
    (m : Message) (s : Store) : HandlerResult :=
  if m.content = "!ping" then ⟨s, [], some "Pong!"⟩
  else if m.content = "!zain" then ⟨s, [], some "hyder"⟩
  else if m.content = "!arjun" then ⟨s, [], some "ishaan"⟩
  else if m.content = "!fetchHistory" then
    match g with
    | none => ⟨s, [], some "Please use this command in a server channel."⟩
    | some guild =>
      let r := fetchAllMessagesForGuildR guild s
      ⟨r.store, r.processed, some "Finished fetching all historical messages!"⟩
  else
    let s1 := (processMessage m s).1
    if m.content = "!stats" then
      if s1 = [] then ⟨s1, [m], some "No data yet!"⟩
      else ⟨s1, [m], some (renderStats resolve s1)⟩
    else ⟨s1, [m], none⟩

/-- The image-extension test of the classifier, on a lowered filename. -/
def isImageName (n : String) : Bool :=
  endsWithS n ".png" || endsWithS n ".jpg" || endsWithS n ".jpeg"

/-- The gif-extension test of the classifier, on a lowered filename. -/
def isGifName (n : String) : Bool := endsWithS n ".gif"

/-- The video-extension test of the classifier, on a lowered filename. -/
def isVideoName (n : String) : Bool :=
  endsWithS n ".mp4" || endsWithS n ".mov" || endsWithS n ".avi" ||
    endsWithS n ".wmv"

/-- An attachment the classifier counts as an image. -/
def isImageAtt (a : Attachment) : Bool := isImageName (lowerName a)

/-- An attachment the classifier counts as a gif. -/
def isGifAtt (a : Attachment) : Bool := isGifName (lowerName a)

/-- An attachment the classifier counts as a video. -/
def isVideoAtt (a : Attachment) : Bool := isVideoName (lowerName a)

theorem getUser_setUser (s : Store) (k u : String) (r : UserStats) :
    getUser (setUser s k r) u = if u = k then some r else getUser s u := by
  induction s with
  | nil =>
    by_cases h : u = k
    · simp [setUser, getUser, h]
    · simp [setUser, getUser, h, Ne.symm h]
  | cons kv rest ih =>
    obtain ⟨k0, v0⟩ := kv
    by_cases hk : k0 = k
    · subst hk
      by_cases h : u = k0
      · simp [setUser, getUser, h]
      · simp [setUser, getUser, h, Ne.symm h]
    · by_cases h : u = k0
      · subst h
        simp [setUser, getUser, hk, Ne.symm hk, ih]
      · simp [setUser, getUser, hk, h, Ne.symm h, ih]

theorem getUser_mapUser (s : Store) (k u : String) (f : UserStats → UserStats) :
    getUser (mapUser s k f) u =
      if u = k then (getUser s k).map f else getUser s u := by
  induction s with
  | nil =>
    by_cases h : u = k <;> simp [mapUser, getUser, h]
  | cons kv rest ih =>
    obtain ⟨k0, v0⟩ := kv
    by_cases hk : k0 = k
    · subst hk
      by_cases h : u = k0
      · simp [mapUser, getUser, h]
      · simp [mapUser, getUser, h, Ne.symm h]
    · by_cases h : u = k0
      · subst h
        simp [mapUser, getUser, hk, Ne.symm hk, ih]
      · simp [mapUser, getUser, hk, h, Ne.symm h, ih]

theorem setUser_self (s : Store) (k : String) (r : UserStats)
    (h : getUser s k = some r) : setUser s k r = s := by
  induction s with
  | nil => simp [getUser] at h
  | cons kv rest ih =>
    obtain ⟨k0, v0⟩ := kv
    by_cases hk : k0 = k
    · subst hk
      simp [getUser] at h
      simp [setUser, h]
    · simp only [getUser, if_neg hk] at h
      simp [setUser, hk, ih h]

theorem startsL_head {c : Char} {ps t : List Char}
    (h : startsL (c :: ps) t = true) : t.head? = some c := by
  cases t with
  | nil => simp [startsL] at h
  | cons c0 cs =>
    simp [startsL] at h
    simp [h.1]

theorem endsWithS_head {n suffix : String} {c : Char} {ps : List Char}
    (hs : suffix.data.reverse = c :: ps) (h : endsWithS n suffix = true) :
    n.data.reverse.head? = some c := by
  rw [endsWithS, hs] at h
  exact startsL_head h

theorem head_of_png {n : String} (h : endsWithS n ".png" = true) :
    n.data.reverse.head? = some 'g' :=
  @endsWithS_head n ".png" 'g' ['n', 'p', '.'] (by decide) h

theorem head_of_jpg {n : String} (h : endsWithS n ".jpg" = true) :
    n.data.reverse.head? = some 'g' :=
  @endsWithS_head n ".jpg" 'g' ['p', 'j', '.'] (by decide) h

theorem head_of_jpeg {n : String} (h : endsWithS n ".jpeg" = true) :
    n.data.reverse.head? = some 'g' :=
  @endsWithS_head n ".jpeg" 'g' ['e', 'p', 'j', '.'] (by decide) h

theorem head_of_gif {n : String} (h : endsWithS n ".gif" = true) :
    n.data.reverse.head? = some 'f' :=
  @endsWithS_head n ".gif" 'f' ['i', 'g', '.'] (by decide) h

theorem head_of_mp4 {n : String} (h : endsWithS n ".mp4" = true) :
    n.data.reverse.head? = some '4' :=
  @endsWithS_head n ".mp4" '4' ['p', 'm', '.'] (by decide) h

theorem head_of_mov {n : String} (h : endsWithS n ".mov" = true) :
    n.data.reverse.head? = some 'v' :=
  @endsWithS_head n ".mov" 'v' ['o', 'm', '.'] (by decide) h

theorem head_of_avi {n : String} (h : endsWithS n ".avi" = true) :
    n.data.reverse.head? = some 'i' :=
  @endsWithS_head n ".avi" 'i' ['v', 'a', '.'] (by decide) h

theorem head_of_wmv {n : String} (h : endsWithS n ".wmv" = true) :
    n.data.reverse.head? = some 'v' :=
  @endsWithS_head n ".wmv" 'v' ['m', 'w', '.'] (by decide) h

theorem image_head {n : String} (h : isImageName n = true) :
    n.data.reverse.head? = some 'g' := by
  rw [isImageName, Bool.or_eq_true, Bool.or_eq_true] at h
  rcases h with (hx | hx) | hx
  · exact head_of_png hx
  · exact head_of_jpg hx
  · exact head_of_jpeg hx

theorem gif_not_image {n : String} (h : isGifName n = true) :
    isImageName n = false := by
  by_contra hb
  rw [Bool.not_eq_false] at hb
  have hg := image_head hb
  have hf := head_of_gif h
  rw [hg] at hf
  simp at hf

theorem video_not_image {n : String} (h : isVideoName n = true) :
    isImageName n = false := by
  by_contra hb
  rw [Bool.not_eq_false] at hb
  have hg := image_head hb
  rw [isVideoName, Bool.or_eq_true, Bool.or_eq_true, Bool.or_eq_true] at h
  rcases h with ((hx | hx) | hx) | hx
  · rw [head_of_mp4 hx] at hg
    simp at hg
  · rw [head_of_mov hx] at hg
    simp at hg
  · rw [head_of_avi hx] at hg
    simp at hg
  · rw [head_of_wmv hx] at hg
    simp at hg

theorem video_not_gif {n : String} (h : isVideoName n = true) :
    isGifName n = false := by
  by_contra hb
  rw [Bool.not_eq_false] at hb
  have hf := head_of_gif hb
  rw [isVideoName, Bool.or_eq_true, Bool.or_eq_true, Bool.or_eq_true] at h
  rcases h with ((hx | hx) | hx) | hx
  · rw [head_of_mp4 hx] at hf
    simp at hf
  · rw [head_of_mov hx] at hf
    simp at hf
  · rw [head_of_avi hx] at hf
    simp at hf
  · rw [head_of_wmv hx] at hf
    simp at hf

theorem undef_repair (o : Option Nat) :
    (if o = none then some 0 else o) = some (o.getD 0) := by
  cases o <;> simp

theorem getUser_initUserStats_self (m : Message) (s : Store) :
    getUser (initUserStats m s) m.author.id = some
      { username := m.author.username,
        messages := some (readCount s m.author.id .messages),
        images := some (readCount s m.author.id .images),
        gifs := some (readCount s m.author.id .gifs),
        videos := some (readCount s m.author.id .videos),
        links := some (readCount s m.author.id .links) } := by
  unfold initUserStats
  cases h : getUser s m.author.id with
  | none => simp [getUser_setUser, readCount, h]
  | some r => simp [getUser_setUser, readCount, h, readCat, undef_repair]

theorem getUser_initUserStats_other (m : Message) (s : Store) (u : String)
    (hu : u ≠ m.author.id) : getUser (initUserStats m s) u = getUser s u := by
  unfold initUserStats
  cases h : getUser s m.author.id <;> simp [h, getUser_setUser, hu]

theorem classify_username (a : Attachment) (r : UserStats) :
    (classifyAttachment a r).username = r.username := by
  simp only [classifyAttachment]
  split_ifs <;> rfl

theorem classify_messages (a : Attachment) (r : UserStats) :
    (classifyAttachment a r).messages = r.messages := by
  simp only [classifyAttachment]
  split_ifs <;> rfl

theorem classify_links (a : Attachment) (r : UserStats) :
    (classifyAttachment a r).links = r.links := by
  simp only [classifyAttachment]
  split_ifs <;> rfl

theorem classify_images (a : Attachment) (r : UserStats) :
    (classifyAttachment a r).images =
      if isImageAtt a then r.images.map (· + 1) else r.images := by
  simp only [classifyAttachment, isImageAtt, isImageName]
  by_cases h1 : (endsWithS (lowerName a) ".png" || endsWithS (lowerName a) ".jpg"
      || endsWithS (lowerName a) ".jpeg") = true
  · simp [h1, bumpImages]
  · by_cases h2 : endsWithS (lowerName a) ".gif" = true
    · simp [h1, h2, bumpGifs]
    · by_cases h3 : (endsWithS (lowerName a) ".mp4" || endsWithS (lowerName a) ".mov"
          || endsWithS (lowerName a) ".avi" || endsWithS (lowerName a) ".wmv") = true
      · simp [h1, h2, h3, bumpVideos]
      · simp [h1, h2, h3]

theorem classify_gifs (a : Attachment) (r : UserStats) :
    (classifyAttachment a r).gifs =
      if isGifAtt a then r.gifs.map (· + 1) else r.gifs := by
  simp only [classifyAttachment, isGifAtt]
  by_cases h1 : (endsWithS (lowerName a) ".png" || endsWithS (lowerName a) ".jpg"
      || endsWithS (lowerName a) ".jpeg") = true
  · have himg : isImageName (lowerName a) = true := by
      simpa [isImageName] using h1
    have hg : isGifName (lowerName a) = false := by
      by_contra hb
      rw [Bool.not_eq_false] at hb
      rw [gif_not_image hb] at himg
      exact Bool.false_ne_true himg
    simp [h1, hg, bumpImages]
  · by_cases h2 : endsWithS (lowerName a) ".gif" = true
    · have hg : isGifName (lowerName a) = true := h2
      simp [h1, h2, hg, bumpGifs]
    · have hg : isGifName (lowerName a) = false := by
        simpa [isGifName] using h2
      by_cases h3 : (endsWithS (lowerName a) ".mp4" || endsWithS (lowerName a) ".mov"
          || endsWithS (lowerName a) ".avi" || endsWithS (lowerName a) ".wmv") = true
      · simp [h1, h2, h3, hg, bumpVideos]
      · simp [h1, h2, h3, hg]

theorem classify_videos (a : Attachment) (r : UserStats) :
    (classifyAttachment a r).videos =
      if isVideoAtt a then r.videos.map (· + 1) else r.videos := by
  simp only [classifyAttachment, isVideoAtt]
  by_cases h1 : (endsWithS (lowerName a) ".png" || endsWithS (lowerName a) ".jpg"
      || endsWithS (lowerName a) ".jpeg") = true
  · have himg : isImageName (lowerName a) = true := by
      simpa [isImageName] using h1
    have hv : isVideoName (lowerName a) = false := by
      by_contra hb
      rw [Bool.not_eq_false] at hb
      rw [video_not_image hb] at himg
      exact Bool.false_ne_true himg
    simp [h1, hv, bumpImages]
  · by_cases h2 : endsWithS (lowerName a) ".gif" = true
    · have hgif : isGifName (lowerName a) = true := h2
      have hv : isVideoName (lowerName a) = false := by
        by_contra hb
        rw [Bool.not_eq_false] at hb
        rw [video_not_gif hb] at hgif
        exact Bool.false_ne_true hgif
      simp [h1, h2, hv, bumpGifs]
    · by_cases h3 : (endsWithS (lowerName a) ".mp4" || endsWithS (lowerName a) ".mov"
          || endsWithS (lowerName a) ".avi" || endsWithS (lowerName a) ".wmv") = true
      · have hv : isVideoName (lowerName a) = true := by
          simpa [isVideoName] using h3
        simp [h1, h2, h3, hv, bumpVideos]
      · have hv : isVideoName (lowerName a) = false := by
          simpa [isVideoName] using h3
        simp [h1, h2, h3, hv]

theorem getUser_foldClassify (atts : List Attachment) (uid : String)
    (s : Store) (r : UserStats) (h : getUser s uid = some r) :
    getUser (atts.foldl (fun st a => mapUser st uid (classifyAttachment a)) s)
        uid =
      some (atts.foldl (fun rec a => classifyAttachment a rec) r) := by
  induction atts generalizing s r with
  | nil => simpa using h
  | cons a as ih =>
    simp only [List.foldl_cons]
    exact ih _ _ (by simp [getUser_mapUser, h])

theorem getUser_foldClassify_other (atts : List Attachment) (uid u : String)
    (s : Store) (hu : u ≠ uid) :
    getUser (atts.foldl (fun st a => mapUser st uid (classifyAttachment a)) s)
        u = getUser s u := by
  induction atts generalizing s with
  | nil => rfl
  | cons a as ih =>
    simp only [List.foldl_cons]
    rw [ih, getUser_mapUser, if_neg hu]

theorem foldClassify_fields (atts : List Attachment) (r : UserStats) :
    atts.foldl (fun rec a => classifyAttachment a rec) r =
      { username := r.username,
        messages := r.messages,
        images := r.images.map (· + atts.countP isImageAtt),
        gifs := r.gifs.map (· + atts.countP isGifAtt),
        videos := r.videos.map (· + atts.countP isVideoAtt),
        links := r.links } := by
  induction atts generalizing r with
  | nil =>
    obtain ⟨un, om, oi, og, ov, ol⟩ := r
    simp only [List.foldl_nil, List.countP_nil]
    cases oi <;> cases og <;> cases ov <;> simp
  | cons a as ih =>
    simp only [List.foldl_cons, ih]
    simp only [classify_username, classify_messages, classify_links,
      classify_images, classify_gifs, classify_videos, List.countP_cons]
    obtain ⟨un, om, oi, og, ov, ol⟩ := r
    simp only [UserStats.mk.injEq, and_true, true_and]
    refine ⟨?_, ?_, ?_⟩
    · by_cases h : isImageAtt a = true <;>
        cases oi <;> simp [h, Nat.add_comm, Nat.add_assoc, Nat.add_left_comm]
    · by_cases h : isGifAtt a = true <;>
        cases og <;> simp [h, Nat.add_comm, Nat.add_assoc, Nat.add_left_comm]
    · by_cases h : isVideoAtt a = true <;>
        cases ov <;> simp [h, Nat.add_comm, Nat.add_assoc, Nat.add_left_comm]

theorem processMessage_getUser_self (m : Message) (s : Store)
    (hb : m.author.bot = false) :
    getUser ((processMessage m s).1) m.author.id = some
      { username := m.author.username,
        messages := some (readCount s m.author.id .messages + 1),
        images := some (readCount s m.author.id .images +
          m.attachments.countP isImageAtt),
        gifs := some (readCount s m.author.id .gifs +
          m.attachments.countP isGifAtt),
        videos := some (readCount s m.author.id .videos +
          m.attachments.countP isVideoAtt),
        links := some (readCount s m.author.id .links +
          if containsLink m.content then 1 else 0) } := by
  unfold processMessage
  rw [hb]
  simp only [Bool.false_eq_true, if_false]
  have h1 := getUser_initUserStats_self m s
  have h2 : getUser (mapUser (initUserStats m s) m.author.id bumpMessages)
      m.author.id = some
      { username := m.author.username,
        messages := some (readCount s m.author.id .messages + 1),
        images := some (readCount s m.author.id .images),
        gifs := some (readCount s m.author.id .gifs),
        videos := some (readCount s m.author.id .videos),
        links := some (readCount s m.author.id .links) } := by
    rw [getUser_mapUser, if_pos rfl, h1]
    simp [bumpMessages]
  have h3 := getUser_foldClassify m.attachments m.author.id _ _ h2
  rw [foldClassify_fields] at h3
  by_cases hl : containsLink m.content = true
  · simp only [hl, if_true, if_pos]
    rw [getUser_mapUser, if_pos rfl, h3]
    simp [bumpLinks]
  · rw [Bool.not_eq_true] at hl
    simp only [hl, Bool.false_eq_true, if_false]
    rw [h3]
    simp

theorem processMessage_getUser_other (m : Message) (s : Store) (u : String)
    (hu : u ≠ m.author.id) :
    getUser ((processMessage m s).1) u = getUser s u := by
  unfold processMessage
  by_cases hb : m.author.bot = true
  · simp [hb]
  · rw [Bool.not_eq_true] at hb
    simp only [hb, Bool.false_eq_true, if_false]
    by_cases hl : containsLink m.content = true
    · simp only [hl, if_true]
      rw [getUser_mapUser, if_neg hu, getUser_foldClassify_other _ _ _ _ hu,
        getUser_mapUser, if_neg hu, getUser_initUserStats_other _ _ _ hu]
    · rw [Bool.not_eq_true] at hl
      simp only [hl, Bool.false_eq_true, if_false]
      rw [getUser_foldClassify_other _ _ _ _ hu,
        getUser_mapUser, if_neg hu, getUser_initUserStats_other _ _ _ hu]

theorem startsL_append_self : ∀ p t : List Char, startsL p (p ++ t) = true := by
  intro p
  induction p with
  | nil => intro t; rfl
  | cons c cs ih => intro t; simp [startsL, ih]

theorem drop_len_append : ∀ p t : List Char, (p ++ t).drop p.length = t := by
  intro p
  induction p with
  | nil => intro t; rfl
  | cons c cs ih => intro t; simpa using ih t

theorem containsLinkAux_head (L : List Char) (h : isLinkAt L = true) :
    containsLinkAux L = true := by
  cases L with
  | nil =>
    have : isLinkAt ([] : List Char) = false := by decide
    rw [this] at h
    exact absurd h (by simp)
  | cons x xs =>
    have he : containsLinkAux (x :: xs) =
        (isLinkAt (x :: xs) || containsLinkAux xs) := rfl
    rw [he, h]
    simp

theorem containsLinkAux_of_match (l1 proto : List Char) (c : Char)
    (l3 : List Char) (hp : proto = "http://".data ∨ proto = "https://".data)
    (hc : c.isWhitespace = false) :
    containsLinkAux (l1 ++ (proto ++ c :: l3)) = true := by
  induction l1 with
  | nil =>
    simp only [List.nil_append]
    apply containsLinkAux_head
    rw [isLinkAt, Bool.or_eq_true, Bool.and_eq_true, Bool.and_eq_true]
    rcases hp with hp | hp <;> subst hp
    · right
      have h7 : ("http://".data ++ c :: l3).drop 7 = c :: l3 := by
        have h := drop_len_append "http://".data (c :: l3)
        simpa using h
      refine ⟨startsL_append_self _ _, ?_⟩
      rw [h7]
      simp [nonspaceAt, hc]
    · left
      have h8 : ("https://".data ++ c :: l3).drop 8 = c :: l3 := by
        have h := drop_len_append "https://".data (c :: l3)
        simpa using h
      refine ⟨startsL_append_self _ _, ?_⟩
      rw [h8]
      simp [nonspaceAt, hc]
  | cons c0 cs ih =>
    rw [List.cons_append]
    have he : containsLinkAux (c0 :: (cs ++ (proto ++ c :: l3))) =
        (isLinkAt (c0 :: (cs ++ (proto ++ c :: l3))) ||
          containsLinkAux (cs ++ (proto ++ c :: l3))) := rfl
    rw [he, ih]
    simp

theorem initUserStats_idem (m : Message) (s : Store) :
    initUserStats m (initUserStats m s) = initUserStats m s := by
  have h1 := getUser_initUserStats_self m s
  generalize hgen : initUserStats m s = t at h1 ⊢
  unfold initUserStats
  simp only [h1, undef_repair, Option.getD_some]
  exact setUser_self t m.author.id _ h1

/-- C3: `initUserStats` on an already-stored record zero-fills exactly the
missing counter keys (a present value `some v` is returned unchanged, a
missing one becomes `some 0`), overwrites the username with the author's
current username, and running the repair twice gives the same store as
running it once. -/
theorem claim_C3_initUserStats_repair (m : Message) (s : Store)
    (r : UserStats) (h : getUser s m.author.id = some r) :
    getUser (initUserStats m s) m.author.id = some
      { username := m.author.username,
        messages := some (r.messages.getD 0),
        images := some (r.images.getD 0),
        gifs := some (r.gifs.getD 0),
        videos := some (r.videos.getD 0),
        links := some (r.links.getD 0) } ∧
    initUserStats m (initUserStats m s) = initUserStats m s := by
  constructor
  · unfold initUserStats
    simp only [h, undef_repair]
    simp [getUser_setUser]
  · exact initUserStats_idem m s

/-- Concrete message for the C3 witness. -/
def exMsgC3 : Message := ⟨⟨"u1", "newname", false⟩, "hi", []⟩

/-- Concrete record with missing `images`, `gifs` and `links` keys. -/
def exRecC3 : UserStats := ⟨"old", some 7, none, none, some 2, none⟩

/-- Concrete store for the C3 witness. -/
def exStoreC3 : Store := [("u1", exRecC3)]

/-- Witness for C3 at a concrete store whose record misses the `images`,
`gifs` and `links` keys. -/
theorem claim_C3_initUserStats_repair_witness :
    getUser exStoreC3 exMsgC3.author.id = some exRecC3 ∧
    getUser (initUserStats exMsgC3 exStoreC3) exMsgC3.author.id = some
      { username := exMsgC3.author.username,
        messages := some (exRecC3.messages.getD 0),
        images := some (exRecC3.images.getD 0),
        gifs := some (exRecC3.gifs.getD 0),
        videos := some (exRecC3.videos.getD 0),
        links := some (exRecC3.links.getD 0) } ∧
    initUserStats exMsgC3 (initUserStats exMsgC3 exStoreC3) =
      initUserStats exMsgC3 exStoreC3 :=
  ⟨by decide, claim_C3_initUserStats_repair exMsgC3 exStoreC3 exRecC3 (by decide)⟩

/-- C4: a bot-authored message leaves the store byte-for-byte unchanged and
`saveStats` is never reached (the persisted flag is `false`). -/
theorem claim_C4_bot_frame (m : Message) (s : Store)
    (h : m.author.bot = true) : processMessage m s = (s, false) := by
  unfold processMessage
  rw [h]
  simp

/-- Concrete bot message for the C4 witness. -/
def exMsgC4 : Message :=
  ⟨⟨"b1", "roboto", true⟩, "http://spam.example", [⟨some "x.png"⟩]⟩

/-- Concrete store for the C4 witness. -/
def exStoreC4 : Store :=
  [("u1", ⟨"alice", some 3, some 1, some 0, some 0, some 0⟩)]

/-- Witness for C4: a concrete bot message (with a link and an image
attachment that would otherwise count) against a nonempty store. -/
theorem claim_C4_bot_frame_witness :
    exMsgC4.author.bot = true ∧
    processMessage exMsgC4 exStoreC4 = (exStoreC4, false) :=
  ⟨by decide, claim_C4_bot_frame exMsgC4 exStoreC4 (by decide)⟩

/-- C5: for a non-bot message with no attachments and no link in its text,
`processMessage` adds exactly 1 to the author's `messages` counter and
changes no other counter of any user. -/
theorem claim_C5_plain_text_frame (m : Message) (s : Store)
    (hb : m.author.bot = false) (ha : m.attachments = [])
    (hl : containsLink m.content = false) :
    (∀ u : String,
      readCount ((processMessage m s).1) u .messages =
        readCount s u .messages + (if u = m.author.id then 1 else 0)) ∧
    (∀ (u : String) (c : Category), c ≠ .messages →
      readCount ((processMessage m s).1) u c = readCount s u c) := by
  have hself := processMessage_getUser_self m s hb
  rw [ha] at hself
  constructor
  · intro u
    by_cases hu : u = m.author.id
    · subst hu
      rw [if_pos rfl]
      simp [readCount, hself, readCat]
    · rw [if_neg hu]
      simp [readCount, processMessage_getUser_other m s u hu]
  · intro u c hc
    by_cases hu : u = m.author.id
    · subst hu
      cases c with
      | messages => exact absurd rfl hc
      | images => simp [readCount, hself, readCat]
      | gifs => simp [readCount, hself, readCat]
      | videos => simp [readCount, hself, readCat]
      | links => simp [readCount, hself, readCat, hl]
    · simp [readCount, processMessage_getUser_other m s u hu]

/-- Concrete plain-text message for the C5 witness. -/
def exMsgC5 : Message := ⟨⟨"u2", "bob", false⟩, "hello there", []⟩

/-- Concrete store for the C5 witness. -/
def exStoreC5 : Store :=
  [("u1", ⟨"alice", some 3, some 1, some 0, some 0, some 0⟩),
   ("u2", ⟨"bob", some 5, some 0, some 2, some 0, some 4⟩)]

/-- Witness for C5: a concrete plain-text message; its author's `messages`
goes from 5 to 6 and every other counter of both users stays put. -/
theorem claim_C5_plain_text_frame_witness :
    (exMsgC5.author.bot = false ∧ exMsgC5.attachments = [] ∧
      containsLink exMsgC5.content = false) ∧
    ((∀ u : String,
      readCount ((processMessage exMsgC5 exStoreC5).1) u .messages =
        readCount exStoreC5 u .messages +
          (if u = exMsgC5.author.id then 1 else 0)) ∧
    (∀ (u : String) (c : Category), c ≠ .messages →
      readCount ((processMessage exMsgC5 exStoreC5).1) u c =
        readCount exStoreC5 u c)) :=
  ⟨⟨rfl, rfl, by decide⟩,
    claim_C5_plain_text_frame exMsgC5 exStoreC5 rfl rfl (by decide)⟩

/-- C6: link detection is a saturating presence test: if the text contains
at least one occurrence of `http://` or `https://` followed by a
non-whitespace character, the author's `links` counter goes up by exactly 1,
however many such occurrences there are. -/
theorem claim_C6_link_saturating (m : Message) (s : Store)
    (hb : m.author.bot = false)
    (hl : ∃ (l1 proto : List Char) (c : Char) (l3 : List Char),
      m.content.data = l1 ++ (proto ++ c :: l3) ∧
      (proto = "http://".data ∨ proto = "https://".data) ∧
      c.isWhitespace = false) :
    readCount ((processMessage m s).1) m.author.id .links =
      readCount s m.author.id .links + 1 := by
  obtain ⟨l1, proto, c, l3, hdata, hp, hc⟩ := hl
  have hcl : containsLink m.content = true := by
    rw [containsLink, hdata]
    exact containsLinkAux_of_match l1 proto c l3 hp hc
  have hself := processMessage_getUser_self m s hb
  rw [hcl] at hself
  simp [readCount, hself, readCat]

/-- Concrete two-link message for the C6 witness. -/
def exMsgC6 : Message :=
  ⟨⟨"u3", "carol", false⟩, "see http://a.example and https://b.example", []⟩

/-- Witness for C6: a text with two distinct URLs still adds exactly 1 (the
counter goes from 0 to 1, not 2). -/
theorem claim_C6_link_saturating_witness :
    readCount ((processMessage exMsgC6 []).1) exMsgC6.author.id .links =
      readCount [] exMsgC6.author.id .links + 1 ∧
    readCount ((processMessage exMsgC6 []).1) exMsgC6.author.id .links = 1 :=
  ⟨claim_C6_link_saturating exMsgC6 []
      rfl
      ⟨"see ".data, "http://".data, 'a', ".example and https://b.example".data,
        by decide, Or.inl rfl, by decide⟩,
    by decide⟩

/-- C7: each attachment is assigned to at most one category (its effect on a
record is one of `bumpImages`, `bumpGifs`, `bumpVideos`, or nothing), the
decision depends only on the lowercased filename, and on a non-bot message
without links the per-category increments are the independent counts of
attachments whose lowercased name ends in `.png`/`.jpg`/`.jpeg` (images),
`.gif` (gifs), and `.mp4`/`.mov`/`.avi`/`.wmv` (videos), with no per-message
cap; `links` is untouched. -/
theorem claim_C7_attachment_classification (m : Message) (s : Store)
    (hb : m.author.bot = false) (hl : containsLink m.content = false) :
    (∀ (a : Attachment) (r : UserStats),
      classifyAttachment a r = bumpImages r ∨
      classifyAttachment a r = bumpGifs r ∨
      classifyAttachment a r = bumpVideos r ∨
      classifyAttachment a r = r) ∧
    (∀ a1 a2 : Attachment, lowerName a1 = lowerName a2 →
      ∀ r, classifyAttachment a1 r = classifyAttachment a2 r) ∧
    readCount ((processMessage m s).1) m.author.id .images =
      readCount s m.author.id .images + m.attachments.countP isImageAtt ∧
    readCount ((processMessage m s).1) m.author.id .gifs =
      readCount s m.author.id .gifs + m.attachments.countP isGifAtt ∧
    readCount ((processMessage m s).1) m.author.id .videos =
      readCount s m.author.id .videos + m.attachments.countP isVideoAtt ∧
    readCount ((processMessage m s).1) m.author.id .links =
      readCount s m.author.id .links := by
  have hself := processMessage_getUser_self m s hb
  rw [hl] at hself
  refine ⟨?_, ?_, ?_, ?_, ?_, ?_⟩
  · intro a r
    simp only [classifyAttachment]
    split_ifs with h1 h2 h3
    · exact Or.inl rfl
    · exact Or.inr (Or.inl rfl)
    · exact Or.inr (Or.inr (Or.inl rfl))
    · exact Or.inr (Or.inr (Or.inr rfl))
  · intro a1 a2 h12 r
    simp only [classifyAttachment, h12]
  · simp [readCount, hself, readCat]
  · simp [readCount, hself, readCat]
  · simp [readCount, hself, readCat]
  · simp [readCount, hself, readCat]

/-- Concrete message with four attachments for the C7 witness. -/
def exMsgC7 : Message :=
  ⟨⟨"u4", "dave", false⟩, "",
    [⟨some "a.png"⟩, ⟨some "b.gif"⟩, ⟨some "c.mp4"⟩, ⟨some "d.png"⟩]⟩

/-- Witness for C7: attachments `a.png, b.gif, c.mp4, d.png` on an empty
store yield images 2, gifs 1, videos 1, links 0. -/
theorem claim_C7_attachment_classification_witness :
    (readCount ((processMessage exMsgC7 []).1) exMsgC7.author.id .images = 2 ∧
     readCount ((processMessage exMsgC7 []).1) exMsgC7.author.id .gifs = 1 ∧
     readCount ((processMessage exMsgC7 []).1) exMsgC7.author.id .videos = 1 ∧
     readCount ((processMessage exMsgC7 []).1) exMsgC7.author.id .links = 0) ∧
    readCount ((processMessage exMsgC7 []).1) exMsgC7.author.id .images =
      readCount [] exMsgC7.author.id .images +
        exMsgC7.attachments.countP isImageAtt :=
  ⟨by decide,
    (claim_C7_attachment_classification exMsgC7 [] rfl (by decide)).2.2.1⟩

theorem totalMessages_setUser_fresh (s : Store) (k : String) (r : UserStats)
    (h : getUser s k = none) :
    totalMessages (setUser s k r) = totalMessages s + r.messages.getD 0 := by
  induction s with
  | nil => simp [setUser, totalMessages, Nat.add_comm]
  | cons kv rest ih =>
    obtain ⟨k0, v0⟩ := kv
    by_cases hk : k0 = k
    · subst hk
      simp [getUser] at h
    · simp only [getUser, if_neg hk] at h
      simp only [setUser, if_neg hk, totalMessages, ih h]
      omega

theorem totalMessages_setUser_existing (s : Store) (k : String)
    (r r0 : UserStats) (h : getUser s k = some r0) :
    totalMessages (setUser s k r) + r0.messages.getD 0 =
      totalMessages s + r.messages.getD 0 := by
  induction s with
  | nil => simp [getUser] at h
  | cons kv rest ih =>
    obtain ⟨k0, v0⟩ := kv
    by_cases hk : k0 = k
    · subst hk
      simp [getUser] at h
      subst h
      simp [setUser, totalMessages]
      omega
    · simp only [getUser, if_neg hk] at h
      simp only [setUser, if_neg hk, totalMessages]
      have := ih h
      omega

theorem totalMessages_mapUser (s : Store) (k : String)
    (f : UserStats → UserStats) (r0 : UserStats) (h : getUser s k = some r0) :
    totalMessages (mapUser s k f) + r0.messages.getD 0 =
      totalMessages s + (f r0).messages.getD 0 := by
  induction s with
  | nil => simp [getUser] at h
  | cons kv rest ih =>
    obtain ⟨k0, v0⟩ := kv
    by_cases hk : k0 = k
    · subst hk
      simp [getUser] at h
      subst h
      simp [mapUser, totalMessages]
      omega
    · simp only [getUser, if_neg hk] at h
      simp only [mapUser, if_neg hk, totalMessages]
      have := ih h
      omega

theorem totalMessages_initUserStats (m : Message) (s : Store) :
    totalMessages (initUserStats m s) = totalMessages s := by
  unfold initUserStats
  cases h : getUser s m.author.id with
  | none =>
    simp only [h]
    rw [totalMessages_setUser_fresh s m.author.id _ h]
    simp
  | some r =>
    simp only [h]
    have hset := totalMessages_setUser_existing s m.author.id
      { username := m.author.username,
        messages := if r.messages = none then some 0 else r.messages,
        images := if r.images = none then some 0 else r.images,
        gifs := if r.gifs = none then some 0 else r.gifs,
        videos := if r.videos = none then some 0 else r.videos,
        links := if r.links = none then some 0 else r.links } r h
    have hmsg : ((if r.messages = none then some 0 else r.messages) :
        Option Nat).getD 0 = r.messages.getD 0 := by
      cases hm : r.messages <;> simp
    simp only [hmsg] at hset
    omega

theorem totalMessages_foldClassify (atts : List Attachment) (uid : String)
    (s : Store) (r : UserStats) (h : getUser s uid = some r) :
    totalMessages
      (atts.foldl (fun st a => mapUser st uid (classifyAttachment a)) s) =
      totalMessages s := by
  induction atts generalizing s r with
  | nil => rfl
  | cons a as ih =>
    simp only [List.foldl_cons]
    have hstep := totalMessages_mapUser s uid (classifyAttachment a) r h
    rw [classify_messages] at hstep
    have hget : getUser (mapUser s uid (classifyAttachment a)) uid =
        some (classifyAttachment a r) := by
      simp [getUser_mapUser, h]
    rw [ih _ _ hget]
    omega

theorem totalMessages_processMessage (m : Message) (s : Store) :
    totalMessages ((processMessage m s).1) =
      totalMessages s + (if m.author.bot then 0 else 1) := by
  by_cases hb : m.author.bot = true
  · simp [processMessage, hb]
  · rw [Bool.not_eq_true] at hb
    unfold processMessage
    simp only [hb, Bool.false_eq_true, if_false]
    have h1 := getUser_initUserStats_self m s
    have ht1 := totalMessages_initUserStats m s
    have ht2 := totalMessages_mapUser (initUserStats m s) m.author.id
      bumpMessages _ h1
    simp only [bumpMessages, Option.map_some', Option.getD_some] at ht2
    have h2 : getUser (mapUser (initUserStats m s) m.author.id bumpMessages)
        m.author.id = some (bumpMessages
          { username := m.author.username,
            messages := some (readCount s m.author.id .messages),
            images := some (readCount s m.author.id .images),
            gifs := some (readCount s m.author.id .gifs),
            videos := some (readCount s m.author.id .videos),
            links := some (readCount s m.author.id .links) }) := by
      simp [getUser_mapUser, h1]
    have ht3 := totalMessages_foldClassify m.attachments m.author.id _ _ h2
    by_cases hl : containsLink m.content = true
    · simp only [hl, if_true]
      have h3 := getUser_foldClassify m.attachments m.author.id _ _ h2
      have ht4 := totalMessages_mapUser _ m.author.id bumpLinks _ h3
      simp only [bumpLinks] at ht4
      omega
    · rw [Bool.not_eq_true] at hl
      simp only [hl, Bool.false_eq_true, if_false]
      omega

theorem processList_append (l1 l2 : List Message) (s : Store) :
    processList (l1 ++ l2) s = processList l2 (processList l1 s) := by
  simp [processList, List.foldl_append]

theorem totalMessages_processList (msgs : List Message) (s : Store) :
    totalMessages (processList msgs s) =
      totalMessages s + msgs.countP (fun m => !m.author.bot) := by
  induction msgs generalizing s with
  | nil => simp [processList]
  | cons m ms ih =>
    have hstep : processList (m :: ms) s =
        processList ms ((processMessage m s).1) := rfl
    rw [hstep, ih, totalMessages_processMessage, List.countP_cons]
    cases hbot : m.author.bot <;> simp [hbot] <;> omega

theorem countP_bot_split (l : List Message) :
    l.countP (fun m => !m.author.bot) + l.countP (fun m => m.author.bot) =
      l.length := by
  induction l with
  | nil => rfl
  | cons m ms ih =>
    rw [List.countP_cons, List.countP_cons]
    cases hbot : m.author.bot <;> simp [hbot] <;> omega

/-- C2: a channel with exactly 250 historical messages, served as pages of
100, 100 and 50, is backfilled with exactly 3 fetch calls returning sizes
100, 100, 50; the loop ends in state `Done` (not `Aborted`), and the sum of
all `messages` counters grows by 250 minus the number of bot-authored
messages among the 250. -/
theorem claim_C2_backfill_exhaustion (p1 p2 p3 : List Message) (s : Store)
    (h1 : p1.length = 100) (h2 : p2.length = 100) (h3 : p3.length = 50) :
    (backfillChannel [.ok p1, .ok p2, .ok p3] s).fetchCalls = 3 ∧
    (backfillChannel [.ok p1, .ok p2, .ok p3] s).sizes = [100, 100, 50] ∧
    (backfillChannel [.ok p1, .ok p2, .ok p3] s).state = .Done ∧
    (backfillChannel [.ok p1, .ok p2, .ok p3] s).fetchedCount = 250 ∧
    totalMessages (backfillChannel [.ok p1, .ok p2, .ok p3] s).store =
      totalMessages s +
        (250 - (p1 ++ p2 ++ p3).countP (fun m => m.author.bot)) := by
  have hp1 : ¬p1.length = 0 := by omega
  have hp1' : ¬p1.length < 100 := by omega
  have hp2 : ¬p2.length = 0 := by omega
  have hp2' : ¬p2.length < 100 := by omega
  have hp3 : ¬p3.length = 0 := by omega
  have hp3' : p3.length < 100 := by omega
  have hres : backfillChannel [.ok p1, .ok p2, .ok p3] s =
      ⟨processList p3 (processList p2 (processList p1 s)),
        3, p1.length + (p2.length + p3.length),
        [p1.length, p2.length, p3.length], p1 ++ (p2 ++ p3), .Done⟩ := by
    rw [backfillChannel, if_neg hp1, if_neg hp1',
      backfillChannel, if_neg hp2, if_neg hp2',
      backfillChannel, if_neg hp3, if_pos hp3']
  rw [hres]
  have hcount : totalMessages
      (processList p3 (processList p2 (processList p1 s))) =
      totalMessages s + (p1 ++ p2 ++ p3).countP (fun m => !m.author.bot) := by
    rw [← processList_append, ← processList_append,
      totalMessages_processList, List.append_assoc]
  have hsplit := countP_bot_split (p1 ++ p2 ++ p3)
  have hlen : (p1 ++ p2 ++ p3).length = 250 := by
    simp [h1, h2, h3]
  refine ⟨rfl, by simp [h1, h2, h3], rfl, by simp [h1, h2, h3], ?_⟩
  rw [hcount]
  omega

/-- One page of n identical non-bot messages, for the C2 witness. -/
def exPage (n : Nat) : List Message :=
  List.replicate n ⟨⟨"u1", "alice", false⟩, "hey", []⟩

/-- Witness for C2: concrete pages of 100, 100 and 50 non-bot messages. -/
theorem claim_C2_backfill_exhaustion_witness :
    ((exPage 100).length = 100 ∧ (exPage 100).length = 100 ∧
      (exPage 50).length = 50) ∧
    ((backfillChannel [.ok (exPage 100), .ok (exPage 100), .ok (exPage 50)]
        []).fetchCalls = 3 ∧
    (backfillChannel [.ok (exPage 100), .ok (exPage 100), .ok (exPage 50)]
        []).sizes = [100, 100, 50] ∧
    (backfillChannel [.ok (exPage 100), .ok (exPage 100), .ok (exPage 50)]
        []).state = .Done ∧
    (backfillChannel [.ok (exPage 100), .ok (exPage 100), .ok (exPage 50)]
        []).fetchedCount = 250 ∧
    totalMessages (backfillChannel
        [.ok (exPage 100), .ok (exPage 100), .ok (exPage 50)] []).store =
      totalMessages [] +
        (250 - (exPage 100 ++ exPage 100 ++ exPage 50).countP
          (fun m => m.author.bot))) :=
  ⟨⟨by simp [exPage], by simp [exPage], by simp [exPage]⟩,
    claim_C2_backfill_exhaustion (exPage 100) (exPage 100) (exPage 50) []
      (by simp [exPage]) (by simp [exPage]) (by simp [exPage])⟩

theorem backfill_abort_of_err (pre : List (List Message))
    (tail2 : List FetchResult) (s : Store)
    (hpre : ∀ p ∈ pre, p.length = 100) :
    (backfillChannel (pre.map FetchResult.ok ++ FetchResult.err :: tail2)
        s).state = .Aborted ∧
    (backfillChannel (pre.map FetchResult.ok ++ FetchResult.err :: tail2)
        s).store = processList pre.flatten s := by
  induction pre generalizing s with
  | nil =>
    simp only [List.map_nil, List.nil_append, List.flatten]
    constructor <;> rfl
  | cons p ps ih =>
    have hp : p.length = 100 := hpre p (by simp)
    have hps : ∀ q ∈ ps, q.length = 100 := fun q hq => hpre q (by simp [hq])
    have hp0 : ¬p.length = 0 := by omega
    have hp100 : ¬p.length < 100 := by omega
    simp only [List.map_cons, List.cons_append]
    rw [backfillChannel, if_neg hp0, if_neg hp100]
    have hih := ih (processList p s) hps
    refine ⟨hih.1, ?_⟩
    rw [hih.2, ← processList_append, List.flatten_cons]

/-- C8: a transient fetch error aborts only the failing channel's loop: the
loop ends in state `Aborted` with the store keeping every count accumulated
from the pages processed before the error, and the backfill of the next
channel of the guild still runs on that store. -/
theorem claim_C8_error_isolated (pre : List (List Message))
    (tail2 pages2 : List FetchResult) (s : Store) (n1 n2 : String)
    (hpre : ∀ p ∈ pre, p.length = 100) :
    (backfillChannel (pre.map FetchResult.ok ++ FetchResult.err :: tail2)
        s).state = .Aborted ∧
    (backfillChannel (pre.map FetchResult.ok ++ FetchResult.err :: tail2)
        s).store = processList pre.flatten s ∧
    fetchAllMessagesForGuild
        ⟨[⟨n1, true, pre.map FetchResult.ok ++ FetchResult.err :: tail2⟩,
          ⟨n2, true, pages2⟩]⟩ s =
      (backfillChannel pages2 (processList pre.flatten s)).store := by
  have habort := backfill_abort_of_err pre tail2 s hpre
  refine ⟨habort.1, habort.2, ?_⟩
  simp only [fetchAllMessagesForGuild, fetchAllMessagesForGuildR,
    List.foldl_cons, List.foldl_nil, if_true]
  rw [habort.2]

/-- Concrete second-channel page for the C8 witness. -/
def exPageC8 : List Message := [⟨⟨"u7", "gina", false⟩, "yo", []⟩]

/-- Witness for C8: the first channel errors on its first fetch, the second
channel still backfills its one message. -/
theorem claim_C8_error_isolated_witness :
    ((backfillChannel (([] : List (List Message)).map FetchResult.ok ++
        FetchResult.err :: []) []).state = .Aborted ∧
    (backfillChannel (([] : List (List Message)).map FetchResult.ok ++
        FetchResult.err :: []) []).store =
      processList ([] : List (List Message)).flatten [] ∧
    fetchAllMessagesForGuild
        ⟨[⟨"general", true, ([] : List (List Message)).map FetchResult.ok ++
            FetchResult.err :: []⟩,
          ⟨"random", true, [FetchResult.ok exPageC8]⟩]⟩ [] =
      (backfillChannel [FetchResult.ok exPageC8]
        (processList ([] : List (List Message)).flatten [])).store) ∧
    totalMessages (fetchAllMessagesForGuild
        ⟨[⟨"general", true, [FetchResult.err]⟩,
          ⟨"random", true, [FetchResult.ok exPageC8]⟩]⟩ []) = 1 :=
  ⟨claim_C8_error_isolated [] [] [FetchResult.ok exPageC8] [] "general"
      "random" (by simp),
    by decide⟩

theorem filter_orderedInsert_eq (key : String × UserStats → Nat) (n : Nat)
    (x : String × UserStats) (hx : key x = n) :
    ∀ l : List (String × UserStats),
      (l.orderedInsert (fun a b => key b ≤ key a) x).filter
          (fun e => key e == n) =
        x :: l.filter (fun e => key e == n) := by
  intro l
  induction l with
  | nil => simp [List.orderedInsert, hx]
  | cons y ys ih =>
    rw [List.orderedInsert]
    by_cases hcmp : key y ≤ key x
    · rw [if_pos hcmp]
      rw [List.filter_cons_of_pos (by simp [hx])]
    · rw [if_neg hcmp]
      have hlt : key x < key y := Nat.lt_of_not_le hcmp
      have hyn : (key y == n) = false := by
        simp only [beq_eq_false_iff_ne, ne_eq]
        omega
      rw [List.filter_cons_of_neg (by simp [hyn]), ih,
        List.filter_cons_of_neg (by simp [hyn])]

theorem filter_orderedInsert_ne (key : String × UserStats → Nat) (n : Nat)
    (x : String × UserStats) (hx : (key x == n) = false) :
    ∀ l : List (String × UserStats),
      (l.orderedInsert (fun a b => key b ≤ key a) x).filter
          (fun e => key e == n) =
        l.filter (fun e => key e == n) := by
  intro l
  induction l with
  | nil => simp [List.orderedInsert, hx]
  | cons y ys ih =>
    rw [List.orderedInsert]
    by_cases hcmp : key y ≤ key x
    · rw [if_pos hcmp]
      rw [List.filter_cons_of_neg (by simp [hx])]
    · rw [if_neg hcmp]
      cases hpy : (key y == n) with
      | true =>
        rw [List.filter_cons_of_pos (by simp [hpy]),
          List.filter_cons_of_pos (by simp [hpy]), ih]
      | false =>
        rw [List.filter_cons_of_neg (by simp [hpy]),
          List.filter_cons_of_neg (by simp [hpy]), ih]

theorem jsSortBy_filter (key : String × UserStats → Nat)
    (l : List (String × UserStats)) (n : Nat) :
    (jsSortBy key l).filter (fun e => key e == n) =
      l.filter (fun e => key e == n) := by
  simp only [jsSortBy]
  induction l with
  | nil => rfl
  | cons x xs ih =>
    rw [List.insertionSort]
    by_cases hx : key x = n
    · rw [filter_orderedInsert_eq key n x hx, ih,
        List.filter_cons_of_pos (by simp [hx])]
    · have hx' : (key x == n) = false := by
        simp only [beq_eq_false_iff_ne, ne_eq]
        exact hx
      rw [filter_orderedInsert_ne key n x hx', ih,
        List.filter_cons_of_neg (by simp [hx'])]

theorem jsSortBy_sorted (key : String × UserStats → Nat)
    (l : List (String × UserStats)) :
    (jsSortBy key l).Pairwise (fun a b => key b ≤ key a) := by
  haveI : IsTotal (String × UserStats) (fun a b => key b ≤ key a) :=
    ⟨fun a b => Nat.le_total _ _⟩
  haveI : IsTrans (String × UserStats) (fun a b => key b ≤ key a) :=
    ⟨fun a b c h1 h2 => le_trans h2 h1⟩
  exact List.sorted_insertionSort _ l

theorem jsSortBy_perm (key : String × UserStats → Nat)
    (l : List (String × UserStats)) : (jsSortBy key l).Perm l :=
  List.perm_insertionSort _ l

/-- First example entry (5 messages) for C9. -/
def exEntryA : String × UserStats :=
  ("100", ⟨"A", some 5, some 0, some 0, some 0, some 0⟩)

/-- Second example entry (also 5 messages, inserted after A) for C9. -/
def exEntryB : String × UserStats :=
  ("200", ⟨"B", some 5, some 1, some 0, some 0, some 0⟩)

/-- Third example entry (3 messages) for C9. -/
def exEntryC : String × UserStats :=
  ("300", ⟨"C", some 3, some 2, some 0, some 0, some 0⟩)

/-- Example store A(5), B(5), C(3), in that insertion order, for C9. -/
def exStoreC9 : Store := [exEntryA, exEntryB, exEntryC]

/-- C9: the leaderboard sort is a stable descending sort on the selected
category's counter: the output is a permutation of the entries, pairwise
descending in the key (so a strictly larger count ranks strictly earlier),
and the entries holding any fixed count value keep their store-iteration
order; in particular for A(5), B(5), C(3) the top two are A then B, with C
last. -/
theorem claim_C9_sort_stable_desc :
    (∀ (c : Category) (l : List (String × UserStats)),
      (jsSortBy (catKey c) l).Pairwise
        (fun a b => catKey c b ≤ catKey c a) ∧
      (∀ n : Nat,
        (jsSortBy (catKey c) l).filter (fun e => catKey c e == n) =
          l.filter (fun e => catKey c e == n)) ∧
      (jsSortBy (catKey c) l).Perm l) ∧
    (jsSortBy (catKey .messages) exStoreC9).take 2 = [exEntryA, exEntryB] ∧
    jsSortBy (catKey .messages) exStoreC9 = [exEntryA, exEntryB, exEntryC] :=
  ⟨fun c l => ⟨jsSortBy_sorted (catKey c) l,
      fun n => jsSortBy_filter (catKey c) l n,
      jsSortBy_perm (catKey c) l⟩,
    by decide, by decide⟩

/-- C10: command messages are treated asymmetrically: `!ping`, `!zain`,
`!arjun` return before `processMessage` (store untouched, nothing
processed); `!fetchHistory` also returns before `processMessage` — only the
guild backfill, a function of the guild and prior store alone, runs; but a
`!stats` message is itself processed first, so its author's `messages`
counter is one higher and the rendered leaderboard is computed from the
already-updated store. -/
theorem claim_C10_command_asymmetry (resolve : String → MemberLookup)
    (g : Guild) (m : Message) (s : Store) (hb : m.author.bot = false) :
    ((m.content = "!ping" ∨ m.content = "!zain" ∨ m.content = "!arjun") →
      (handleMessage resolve (some g) m s).store = s ∧
      (handleMessage resolve (some g) m s).processed = []) ∧
    (m.content = "!fetchHistory" →
      (handleMessage resolve (some g) m s).store =
        fetchAllMessagesForGuild g s ∧
      (handleMessage resolve (some g) m s).processed =
        (fetchAllMessagesForGuildR g s).processed) ∧
    (m.content = "!stats" →
      (handleMessage resolve (some g) m s).processed = [m] ∧
      (handleMessage resolve (some g) m s).store = (processMessage m s).1 ∧
      readCount (handleMessage resolve (some g) m s).store m.author.id
          .messages = readCount s m.author.id .messages + 1 ∧
      (handleMessage resolve (some g) m s).reply =
        some (renderStats resolve (processMessage m s).1)) := by
  refine ⟨?_, ?_, ?_⟩
  · rintro (h | h | h) <;> simp [handleMessage, h]
  · intro h
    simp [handleMessage, h, fetchAllMessagesForGuild]
  · intro h
    have hself := processMessage_getUser_self m s hb
    have hne : (processMessage m s).1 ≠ [] := by
      intro he
      rw [he] at hself
      simp [getUser] at hself
    have hh : handleMessage resolve (some g) m s =
        ⟨(processMessage m s).1, [m],
          some (renderStats resolve (processMessage m s).1)⟩ := by
      simp [handleMessage, h, hne]
    rw [hh]
    refine ⟨rfl, rfl, ?_, rfl⟩
    simp [readCount, hself, readCat]

/-- Member resolution that always fails with a non-10007 error, for
witnesses. -/
def exResolve : String → MemberLookup := fun _ => MemberLookup.otherError

/-- Empty guild for the C10 witness. -/
def exGuildC10 : Guild := ⟨[]⟩

/-- A concrete `!stats` message for the C10 witness. -/
def exMsgC10 : Message := ⟨⟨"u9", "erin", false⟩, "!stats", []⟩

/-- A concrete prior store for the C10 witness. -/
def exStoreC10 : Store :=
  [("u8", ⟨"frank", some 2, some 0, some 0, some 0, some 0⟩)]

/-- Witness for C10 at a concrete `!stats` message: the issuer's own
command is counted (their `messages` goes from 0 to 1) before rendering. -/
theorem claim_C10_command_asymmetry_witness :
    (exMsgC10.author.bot = false ∧
      readCount (handleMessage exResolve (some exGuildC10) exMsgC10
        exStoreC10).store "u9" .messages = 1) ∧
    (((exMsgC10.content = "!ping" ∨ exMsgC10.content = "!zain" ∨
        exMsgC10.content = "!arjun") →
      (handleMessage exResolve (some exGuildC10) exMsgC10 exStoreC10).store =
        exStoreC10 ∧
      (handleMessage exResolve (some exGuildC10) exMsgC10
        exStoreC10).processed = []) ∧
    (exMsgC10.content = "!fetchHistory" →
      (handleMessage exResolve (some exGuildC10) exMsgC10 exStoreC10).store =
        fetchAllMessagesForGuild exGuildC10 exStoreC10 ∧
      (handleMessage exResolve (some exGuildC10) exMsgC10
          exStoreC10).processed =
        (fetchAllMessagesForGuildR exGuildC10 exStoreC10).processed) ∧
    (exMsgC10.content = "!stats" →
      (handleMessage exResolve (some exGuildC10) exMsgC10
          exStoreC10).processed = [exMsgC10] ∧
      (handleMessage exResolve (some exGuildC10) exMsgC10 exStoreC10).store =
        (processMessage exMsgC10 exStoreC10).1 ∧
      readCount (handleMessage exResolve (some exGuildC10) exMsgC10
          exStoreC10).store exMsgC10.author.id .messages =
        readCount exStoreC10 exMsgC10.author.id .messages + 1 ∧
      (handleMessage exResolve (some exGuildC10) exMsgC10 exStoreC10).reply =
        some (renderStats exResolve
          (processMessage exMsgC10 exStoreC10).1))) :=
  ⟨⟨rfl, by decide⟩,
    claim_C10_command_asymmetry exResolve exGuildC10 exMsgC10 exStoreC10 rfl⟩

/-- Two-entry leaderboard (Alice 5 messages, Bob 3) for the C1 exhibit. -/
def exLBC1 : List (String × UserStats) :=
  [("1", ⟨"Alice", some 5, some 0, some 0, some 0, some 0⟩),
   ("2", ⟨"Bob", some 3, some 0, some 0, some 0, some 0⟩)]

/-- C1 (code bug exhibit): `topTen.indexOf([userId, userStats])` searches
for a freshly allocated array, which is identical (`===`) to no element, so
it returns -1 and every rendered line carries the numeric label 0 instead
of its 1-based rank: on the two-entry leaderboard the output is two lines
both labelled `0.`, not `1.` and `2.`. -/
theorem claim_C1_rank_label_zero :
    getTopTenUsers (fun _ => MemberLookup.otherError) exLBC1 .messages =
      "0. **Alice** - `5`\n0. **Bob** - `3`\n" ∧
    getTopTenUsers (fun _ => MemberLookup.otherError) exLBC1 .messages ≠
      "1. **Alice** - `5`\n2. **Bob** - `3`\n" := by
  constructor
  · decide
  · decide
